import Mathlib

/-!
# Verification of the mavlog2csv repository

Shallow embedding of the two pipelines of the repository:
* `src/mavlog2csv.py` — event filtering / row projection / tabular export,
* `src/mavlog2csv/sync.py` — arm/disarm extraction and linear time synchronization.

Machine reals (Python floats) are modelled by exact rationals `ℚ`, Python ints by `ℤ`,
Python strings by `String` (parsing is performed on `List Char`).  Fallible Python code
(code that can raise) is modelled with `Except String`.  File-system side effects are
modelled explicitly: the synchronized destination file is an `Option (List (List String))`
(`none` = never opened), and decoder-handle lifecycles are traces of `REvent`s.
-/

/-! ## Generic character/list helpers (Python `str` operations) -/

/-- ASCII model of the regex class `\w` used by `re.match` in `parse_cli_column`
(Python also matches non-ASCII word characters; every claim uses ASCII only). -/
def isWordChar (c : Char) : Bool := c.isAlphanum || c == '_'

/-- `Python str.split(sep)` on character lists: `n` separators give `n+1` parts,
empty parts included. -/
def splitOnChar (sep : Char) : List Char → List (List Char)
  | [] => [[]]
  | c :: cs =>
    match splitOnChar sep cs with
    | [] => if c = sep then [[], []] else [[c]]
    | h :: t => if c = sep then [] :: h :: t else (c :: h) :: t

/-- Python `s.rsplit(sep, 1)` when `sep` occurs in `s`: the part before the last
separator and the part after it; `none` when the separator does not occur. -/
def rsplitOnce (sep : Char) (cs : List Char) : Option (List Char × List Char) :=
  let rev := cs.reverse
  let afterRev := rev.takeWhile (fun c => !(c == sep))
  match rev.drop afterRev.length with
  | [] => none
  | _ :: beforeRev => some (beforeRev.reverse, afterRev.reverse)

/-- Replace the first occurrence of `old` by `new` (Python `str.replace(old, new, 1)`). -/
def replaceFirstChar (old new : Char) : List Char → List Char
  | [] => []
  | c :: cs => if c = old then new :: cs else c :: replaceFirstChar old new cs

/-- Python `s[::-1].replace(":", ".", 1)[::-1]` — replace the last colon by a period. -/
def replaceLastColon (cs : List Char) : List Char :=
  (replaceFirstChar ':' '.' cs.reverse).reverse

/-- Python `s[:-4] + "." + s[-3:]` (the fallback rewrite in `sync_and_write`'s row loop).
Python slice clamping for short strings is reproduced by `Nat` truncated subtraction. -/
def pyTailRewrite (cs : List Char) : List Char :=
  cs.take (cs.length - 4) ++ '.' :: cs.drop (cs.length - 3)

/-- Decimal rendering of a `Nat` left-padded with zeros to `width` digits. -/
def natPad (n : Nat) (width : Nat) : String :=
  let s := toString n
  String.mk (List.replicate (width - s.length) '0') ++ s

/-- Decimal rendering of an `Int` with the absolute value padded to `width` digits. -/
def intPad (z : Int) (width : Nat) : String :=
  (if z < 0 then "-" else "") ++ natPad z.natAbs width

/-- Round-half-even on rationals, the rounding used by Python's `round` and by
`format(x, ".6f")` (Python performs it on binary floats; exact rationals model
the ideal value). -/
def roundHalfEven (q : ℚ) : ℤ :=
  let f := ⌊q⌋
  let r := q - f
  if r < 1 / 2 then f else if 1 / 2 < r then f + 1 else if f % 2 = 0 then f else f + 1

/-- Python `round(x, 2)` on the rational model. -/
def round2 (q : ℚ) : ℚ := (roundHalfEven (q * 100) : ℚ) / 100

/-- Python `f"{x:.6f}"` on the rational model: fixed-point with six decimals. -/
def format6 (q : ℚ) : String :=
  let n := roundHalfEven (q * 1000000)
  let a := n.natAbs
  (if q < 0 then "-" else "") ++ toString (a / 1000000) ++ "." ++ natPad (a % 1000000) 6

/-! ## Proleptic Gregorian calendar (for `datetime`) -/

def isLeapYear (y : ℤ) : Bool := (y % 4 == 0 && !(y % 100 == 0)) || y % 400 == 0

def daysInMonth (y m : ℤ) : ℤ :=
  if m = 2 then (if isLeapYear y then 29 else 28)
  else if m = 4 ∨ m = 6 ∨ m = 9 ∨ m = 11 then 30
  else 31

/-- Days since 1970-01-01 of a civil date (standard era-based algorithm). -/
def daysFromCivil (y m d : ℤ) : ℤ :=
  let y1 := if m ≤ 2 then y - 1 else y
  let era := Int.fdiv y1 400
  let yoe := y1 - era * 400
  let mp := if m > 2 then m - 3 else m + 9
  let doy := Int.fdiv (153 * mp + 2) 5 + d - 1
  let doe := yoe * 365 + Int.fdiv yoe 4 - Int.fdiv yoe 100 + doy
  era * 146097 + doe - 719468

/-- Civil date `(year, month, day)` of a count of days since 1970-01-01. -/
def civilFromDays (z0 : ℤ) : ℤ × ℤ × ℤ :=
  let z := z0 + 719468
  let era := Int.fdiv z 146097
  let doe := z - era * 146097
  let yoe := Int.fdiv (doe - Int.fdiv doe 1460 + Int.fdiv doe 36524 - Int.fdiv doe 146096) 365
  let y := yoe + era * 400
  let doy := doe - (365 * yoe + Int.fdiv yoe 4 - Int.fdiv yoe 100)
  let mp := Int.fdiv (5 * doy + 2) 153
  let d := doy - Int.fdiv (153 * mp + 2) 5 + 1
  let m := if mp < 10 then mp + 3 else mp - 9
  (if m ≤ 2 then y + 1 else y, m, d)

/-- Microseconds since 1970-01-01T00:00:00 of a civil date-time.  A parsed
`datetime.datetime` is represented canonically by this instant; `datetime`
subtraction (`total_seconds`) becomes subtraction of these integers. -/
def epochMicros (y m d hh mi ss us : ℤ) : ℤ :=
  (daysFromCivil y m d * 86400 + hh * 3600 + mi * 60 + ss) * 1000000 + us

/-- `datetime.date.isoformat()` of the UTC day containing the given unix second.
(Python's `fromtimestamp` uses the local timezone; the offset is irrelevant to
every claim, so the model fixes UTC.) -/
def dateIso (ts : ℤ) : String :=
  let (y, m, d) := civilFromDays (Int.fdiv ts 86400)
  intPad y 4 ++ "-" ++ intPad m 2 ++ "-" ++ intPad d 2

/-- `datetime.time.isoformat()` of the UTC time of day of the given unix second
(microseconds are zero in the integer model, so the `HH:MM:SS` form is emitted,
as Python does). -/
def timeIso (ts : ℤ) : String :=
  let s := Int.emod ts 86400
  intPad (Int.fdiv s 3600) 2 ++ ":" ++ intPad (Int.emod (Int.fdiv s 60) 60) 2
    ++ ":" ++ intPad (Int.emod s 60) 2

/-! ## `datetime.datetime.fromisoformat`

Model of the Python standard-library parser on the fragment exercised by this
repository: `YYYY-MM-DD`, optionally followed by a `T` or space separator and
`HH:MM[:SS[.f…]]` with one to six fractional digits.  Timezone suffixes and the
dash-less basic format are outside the model's scope (no input of the
repository's pipelines uses them). -/

/-- Read exactly `n` decimal digits, returning their value and the rest. -/
def readNDigits : Nat → Nat → List Char → Option (Nat × List Char)
  | 0, acc, cs => some (acc, cs)
  | n + 1, acc, c :: cs =>
    if c.isDigit then readNDigits n (acc * 10 + (c.toNat - 48)) cs else none
  | _ + 1, _, [] => none

def expectChar (c : Char) : List Char → Option (List Char)
  | x :: xs => if x = c then some xs else none
  | [] => none

/-- One to six fractional digits filling the whole rest, scaled to microseconds. -/
def parseFrac (cs : List Char) : Option Nat :=
  let ds := cs.takeWhile Char.isDigit
  if ds.length = cs.length ∧ 1 ≤ ds.length ∧ ds.length ≤ 6 then
    some ((ds.foldl (fun a c => a * 10 + (c.toNat - 48)) 0) * 10 ^ (6 - ds.length))
  else none

def timeOfParts (y mo da hh mi ss us : ℤ) : Option ℤ :=
  if 1 ≤ y ∧ y ≤ 9999 ∧ 1 ≤ mo ∧ mo ≤ 12 ∧ 1 ≤ da ∧ da ≤ daysInMonth y mo
      ∧ 0 ≤ hh ∧ hh ≤ 23 ∧ 0 ≤ mi ∧ mi ≤ 59 ∧ 0 ≤ ss ∧ ss ≤ 59 then
    some (epochMicros y mo da hh mi ss us)
  else none

def isoParse (cs : List Char) : Option ℤ := do
  let (y, r1) ← readNDigits 4 0 cs
  let r2 ← expectChar '-' r1
  let (mo, r3) ← readNDigits 2 0 r2
  let r4 ← expectChar '-' r3
  let (da, r5) ← readNDigits 2 0 r4
  match r5 with
  | [] => timeOfParts y mo da 0 0 0 0
  | sep :: r6 =>
    if sep = 'T' ∨ sep = ' ' then do
      let (hh, r7) ← readNDigits 2 0 r6
      let r8 ← expectChar ':' r7
      let (mi, r9) ← readNDigits 2 0 r8
      match r9 with
      | [] => timeOfParts y mo da hh mi 0 0
      | ':' :: r10 => do
        let (ss, r11) ← readNDigits 2 0 r10
        match r11 with
        | [] => timeOfParts y mo da hh mi ss 0
        | '.' :: fr => do
          let us ← parseFrac fr
          timeOfParts y mo da hh mi ss us
        | ',' :: fr => do
          let us ← parseFrac fr
          timeOfParts y mo da hh mi ss us
        | _ => none
      | _ => none
    else none

/-- `datetime.datetime.fromisoformat`: the instant in epoch microseconds, or the
`ValueError` Python raises (message abridged: Python quotes the offending string). -/
def fromisoformat (s : String) : Except String ℤ :=
  match isoParse s.data with
  | some v => .ok v
  | none => .error ("Invalid isoformat string: " ++ s)

/-! ## Data model: telemetry events -/

/-- A field value of a telemetry event (numeric or string).  Python floats do not
occur in any claim; numeric values are modelled by `ℤ`. -/
inductive Value where
  | int (z : ℤ)
  | str (s : String)
deriving DecidableEq, BEq, Repr

/-- A `TelemetryEvent`: a type tag and the attribute mapping.  `TimeUS`, `Id`,
`ArmState` and `_timestamp` are ordinary attributes, looked up by name exactly as
Python's `getattr` does. -/
structure Message where
  msgType : String
  attrs : List (String × Value)
deriving DecidableEq, BEq, Repr

/-- `getattr(message, k, None)`. -/
def getattrV (m : Message) (k : String) : Option Value := m.attrs.lookup k

/-- `is_message_bad`: `message is None or message.get_type() == "BAD_DATA"`. -/
def is_message_bad : Option Message → Bool
  | none => true
  | some m => m.msgType == "BAD_DATA"

/-! ## Assoc-list model of Python `dict` rows -/

/-- Python `dict` assignment `row[k] = v`: overwrite in place when the key is
present (keeping its position), append otherwise. -/
def dinsertA {β : Type} (row : List (String × β)) (k : String) (v : β) :
    List (String × β) :=
  if row.any (fun p => k == p.1) then
    row.map (fun p => cond (k == p.1) (k, v) p)
  else row ++ [(k, v)]

/-- One row of the external CSV, as produced by `csv.DictReader`. -/
abbrev CsvRow := List (String × String)

/-- `row[k]` with the `csv.DictWriter` `restval=""` default for a missing key
(rows produced by `DictReader` always carry every fieldname). -/
def lookupD (r : CsvRow) (k : String) : String := (r.lookup k).getD ""

/-! ## `src/mavlog2csv.py` -/

/-- The fixed ArduPlane mode table `PLANE_MODE_MAPPING`. -/
def PLANE_MODE_MAPPING : List (ℤ × String) :=
  [(0, "MANUAL"), (1, "CIRCLE"), (2, "STABILIZE"), (3, "TRAINING"), (4, "ACRO"),
   (5, "FBWA"), (6, "FBWB"), (7, "CRUISE"), (8, "AUTOTUNE"), (10, "AUTO"),
   (11, "RTL"), (12, "LOITER"), (13, "TAKEOFF"), (14, "AVOID_ADSB"), (15, "GUIDED"),
   (16, "INITIALISING"), (17, "QSTABILIZE"), (18, "QHOVER"), (19, "QLOITER"),
   (20, "QLAND"), (21, "QRTL"), (22, "QAUTOTUNE"), (23, "QACRO"), (24, "THERMAL")]

/-- `get_mode_string`: `PLANE_MODE_MAPPING.get(int(mode_num), str(mode_num))`. -/
def get_mode_string (z : ℤ) : String :=
  (PLANE_MODE_MAPPING.lookup z).getD (toString z)

/-- The regex-`match` of `parse_cli_column`: `re.match` anchors at the start only,
so the pattern `(?P<message_type>\w+)\.(?P<column>\w+)` succeeds exactly when the
string starts with a nonempty word-character run, a dot, and at least one word
character; the two captured groups are the greedy word runs.  Trailing content
is ignored by `re.match`. -/
def wordDotWordSplit (cs : List Char) : Option (List Char × List Char) :=
  let a := cs.takeWhile isWordChar
  if a.isEmpty then none
  else
    match cs.drop a.length with
    | '.' :: rest =>
      let b := rest.takeWhile isWordChar
      if b.isEmpty then none else some (a, b)
    | _ => none

/-- `parse_cli_column` (error message abridged from the dedented f-string). -/
def parse_cli_column (s : String) : Except String (String × String) :=
  match wordDotWordSplit s.data with
  | some (a, b) => .ok (String.mk a, String.mk b)
  | none =>
    .error ("Specified column is not correct format: Column " ++ s
      ++ " must be <Message type>.<Column>. For example: GPS.Lat")

/-- Written from the spec words of the ColumnSpec invariant, for comparison with
the code's `parse_cli_column`: the whole string is two nonempty identifier parts
joined by a single dot, with no extra content. -/
def matchesTypeFieldExact (s : String) : Bool :=
  match splitOnChar '.' s.data with
  | [a, b] => !a.isEmpty && !b.isEmpty && a.all isWordChar && b.all isWordChar
  | _ => false

/-- Whether `wordDotWordSplit` succeeds: the string begins with `word.word`. -/
def hasWordDotWord (s : String) : Bool := (wordDotWordSplit s.data).isSome

/-- Is this message the arm-transition event (`EV` with `Id == 10`)? -/
def isArmEvent (m : Message) : Bool :=
  m.msgType == "EV" && getattrV m "Id" == some (Value.int 10)

/-- Number of arm-transition events in a stream segment. -/
def armEventCount (l : List Message) : Nat := (l.filter isArmEvent).length

/-- The loop body of `iter_mavlink_messages` over the finite decoded stream.
`recv_match(type=types)` returns only messages whose type is in the requested
set (the set already extended with `"EV"`), modelled by skipping the others;
`n` is the running `n_armed` counter; `armStep` is the counter update at one
message. -/
def armStep (m : Message) (n : Nat) : Nat := if isArmEvent m then n + 1 else n

def iterGo (types : List String) (skip : Nat) : List Message → Nat → List Message
  | [], _ => []
  | m :: rest, n =>
    if !(types.contains m.msgType || m.msgType == "EV") then iterGo types skip rest n
    else if is_message_bad (some m) then iterGo types skip rest n
    else if armStep m n < skip || m.msgType == "EV" then iterGo types skip rest (armStep m n)
    else m :: iterGo types skip rest (armStep m n)

/-- `iter_mavlink_messages` on the decoded stream of the device (the `.bin`
extension gate of `mavlink_connect` is modelled separately by
`mavlink_connect_trace`). -/
def iter_mavlink_messages (stream : List Message) (types : List String)
    (skip : Nat) : List Message :=
  iterGo types skip stream 0

/-- A row of the tabular export: scalar cells. -/
inductive RVal where
  | int (z : ℤ)
  | str (s : String)
  | rat (q : ℚ)
deriving DecidableEq, BEq, Repr

/-- The f-string key `f"{msg_type}.{col}"`. -/
def mkKey (t c : String) : String := String.mk (t.data ++ '.' :: c.data)

/-- `get_mode_string` applied to a raw attribute value (`int(mode_num)` first).
A non-numeric string would make Python's `int()` raise `ValueError`; that branch
is unreachable in every theorem and returns the string unchanged. -/
def translateMode : Value → Value
  | .int z => .str (get_mode_string z)
  | .str s =>
    match s.toInt? with
    | some z => .str (get_mode_string z)
    | none => .str s

/-- The per-column cell of `message_to_row`: raw attribute, mode translation for
`MODE.Mode` / `MODE.ModeNum`, absent (`None`) rendered as `""`. -/
def cellVal (m : Message) (c : String) : RVal :=
  let v0 := getattrV m c
  let v1 :=
    if m.msgType == "MODE" && (c == "Mode" || c == "ModeNum") then v0.map translateMode
    else v0
  match v1 with
  | none => .str ""
  | some (.int z) => .int z
  | some (.str s) => .str s

/-- `message_to_row`.  A string-valued `TimeUS` or `_timestamp` would make the
Python arithmetic raise `TypeError`; those branches are unreachable in every
theorem. -/
def message_to_row (m : Message) (cols : List String) : List (String × RVal) :=
  let tPair : RVal × RVal :=
    match getattrV m "TimeUS" with
    | some (.int t) => (.int t, .rat (round2 ((t : ℚ) / 1000000)))
    | some (.str s) => (.str s, .int 0)
    | none => (.int 0, .int 0)
  let dPair : RVal × RVal :=
    match getattrV m "_timestamp" with
    | some (.int w) => (.str (dateIso w), .str (timeIso w))
    | some (.str _) => (.str "", .str "")
    | none => (.str "", .str "")
  let base := [("TimeUS", tPair.1), ("TimeS", tPair.2), ("Date", dPair.1), ("Time", dPair.2)]
  cols.foldl (fun r c => dinsertA r (mkKey m.msgType c) (cellVal m c)) base

/-- `mavlog2csv`: parse the column specs, derive the type filter, drive the
event filter and project every yielded message whose type has requested columns.
The result is the header and the projected data rows (CSV quoting is a direct
rendering of these and carries no logic). -/
def mavlog2csvRun (stream : List Message) (columns : List String) (skip : Nat) :
    Except String (List String × List (List (String × RVal))) :=
  match columns.mapM parse_cli_column with
  | .error e => .error e
  | .ok parsed =>
    let typeFilter := parsed.map (fun p => p.1)
    let header := ["TimeUS", "TimeS", "Date", "Time"] ++ columns
    let msgs := iter_mavlink_messages stream typeFilter skip
    let rows := msgs.filterMap (fun m =>
      let mcols := (parsed.filter (fun p => p.1 == m.msgType)).map (fun p => p.2)
      if mcols.isEmpty then none else some (message_to_row m mcols))
    .ok (header, rows)

/-! ## Resource lifecycle model -/

/-- Effect events of a decoder-handle lifecycle. -/
inductive REvent where
  | openConn
  | closeConn
  | writeArmCsv
deriving DecidableEq, BEq, Repr

/-- Case-insensitive check for the `.bin` extension in `mavlink_connect`. -/
def endsWithBin (s : String) : Bool :=
  (s.data.map Char.toLower).reverse.take 4 == ['n', 'i', 'b', '.']

/-- Trace semantics of the `mavlink_connect` context manager: after a successful
open, the body events happen; `conn.close()` runs only when the body returns
normally — the generator has no `try`/`finally`, so an exception thrown into the
`yield` point skips the close (`bodyOk = false`). -/
def mavlink_connect_trace (device : String) (bodyEvs : List REvent) (bodyOk : Bool) :
    List REvent :=
  if endsWithBin device then
    .openConn :: bodyEvs ++ (if bodyOk then [.closeConn] else [])
  else []

/-! ## `src/mavlog2csv/sync.py` -/

/-- Collection loop of `get_arm_disarm_times`: `recv_match(type=["ARM"])` yields
only `ARM`-typed messages; each contributes `(TimeUS, ArmState)`.  A missing or
non-numeric `TimeUS` makes Python raise (`AttributeError` / `TypeError`),
modelled as an error. -/
def collectArm : List Message → Except String (List (ℤ × Option Value))
  | [] => .ok []
  | m :: rest =>
    if m.msgType == "ARM" then
      match getattrV m "TimeUS" with
      | some (.int t) =>
        match collectArm rest with
        | .ok recs => .ok ((t, getattrV m "ArmState") :: recs)
        | .error e => .error e
      | _ => .error "AttributeError: TimeUS"
    else collectArm rest

/-- Every `ARM` message has a numeric `TimeUS` attribute. -/
def hasIntTimeUS (m : Message) : Bool :=
  match getattrV m "TimeUS" with
  | some (.int _) => true
  | _ => false

/-- The list of `(TimeUS, ArmState)` records of the `ARM` messages of a stream. -/
def armRecords (B : List Message) : List (ℤ × Option Value) :=
  B.filterMap (fun m =>
    if m.msgType == "ARM" then
      match getattrV m "TimeUS" with
      | some (.int t) => some (t, getattrV m "ArmState")
      | _ => none
    else none)

/-- The scan over collected arm records: first record with `ArmState == 1` wins
for the arm time, last record with `ArmState == 0` wins for the disarm time. -/
def scanArm : List (ℤ × Option Value) → Option ℚ → Option ℚ → Option ℚ × Option ℚ
  | [], fa, ld => (fa, ld)
  | (t, st) :: rest, fa, ld =>
    let fa1 :=
      match fa with
      | none => if st == some (Value.int 1) then some ((t : ℚ) / 1000000) else none
      | some x => some x
    let ld1 := if st == some (Value.int 0) then some ((t : ℚ) / 1000000) else ld
    scanArm rest fa1 ld1

/-- `get_arm_disarm_times` over the decoded stream: the resource trace and the
`(first_arm_time_sec, last_disarm_time_sec)` result.  The connection is opened,
the auxiliary arm CSV is written when any record was collected, and — exactly as
in the source — `conn.close()` is never called on any path. -/
def get_arm_disarm_times (B : List Message) :
    List REvent × Except String (ℚ × ℚ) :=
  match collectArm B with
  | .error e => ([.openConn], .error e)
  | .ok recs =>
    let trace := .openConn :: (if recs.isEmpty then [] else [.writeArmCsv])
    match scanArm recs none none with
    | (none, _) => (trace, .error "Could not find any ARM event (ArmState=1).")
    | (some _, none) => (trace, .error "Could not find any DISARM event (ArmState=0).")
    | (some fa, some ld) => (trace, .ok (fa, ld))

/-- The nested `parse_dt` of `parse_csv_timestamps`: split on `T` into exactly
two parts, and only when the last colon-delimited segment of the time part has
exactly three characters is the last colon replaced by a period and the result
handed to `fromisoformat`.  Note: a directly ISO-parseable string such as
`…T13:23:42.231` is NOT accepted here — no direct `fromisoformat` attempt is
made. -/
def parse_dt (s : String) : Except String ℤ :=
  match splitOnChar 'T' s.data with
  | [datePart, timePart] =>
    if timePart.any (fun c => c == ':') then
      match rsplitOnce ':' timePart with
      | some (t0, t1) =>
        if t1.length = 3 then
          fromisoformat (String.mk (datePart ++ 'T' :: t0 ++ '.' :: t1))
        else .error ("Could not parse timestamp: " ++ s)
      | none => .error ("Could not parse timestamp: " ++ s)
    else .error ("Could not parse timestamp: " ++ s)
  | _ => .error ("Invalid time format: " ++ s)

/-- `parse_csv_timestamps` after `csv.DictReader` has produced `fieldnames` and
`rows`: empty-table check, timestamp-column choice (`"time"` preferred over
`"Time"`), and the first/last row parse via `parse_dt`.  Returns
`(start, end, time_col)` in epoch microseconds. -/
def parse_csv_timestamps (fieldnames : List String) (rows : List CsvRow) :
    Except String (ℤ × ℤ × String) :=
  match rows with
  | [] => .error "CSV file is empty."
  | r0 :: rest =>
    let timeCol := if fieldnames.contains "time" then "time" else "Time"
    let rlast := (r0 :: rest).getLastD r0
    match parse_dt (lookupD r0 timeCol) with
    | .error e => .error e
    | .ok s =>
      match parse_dt (lookupD rlast timeCol) with
      | .error e => .error e
      | .ok e => .ok (s, e, timeCol)

/-- The inline per-row timestamp parse of `sync_and_write`'s loop: direct
`fromisoformat` first; on `ValueError`, rewrite the last colon to a period when
the string has exactly three colons, else substitute a period for the fourth
character from the end.  Failures of the rewritten parse propagate. -/
def parse_row_timestamp (s : String) : Except String ℤ :=
  match fromisoformat s with
  | .ok v => .ok v
  | .error _ =>
    if (s.data.filter (fun c => c == ':')).length = 3 then
      fromisoformat (String.mk (replaceLastColon s.data))
    else fromisoformat (String.mk (pyTailRewrite s.data))

/-- The rewritten output row for one external record: parse its timestamp,
compute `virtual_time = bin_start + offset * scale`, store it under
`VirtualTime`, and render the row in `["VirtualTime"] + fieldnames` order.
(The error branch is unreachable wherever this definition is used.) -/
def sync_out_row (tc : String) (F : List String) (csvStart : ℤ)
    (binStart scale : ℚ) (r : CsvRow) : List String :=
  match parse_row_timestamp (lookupD r tc) with
  | .error _ => []
  | .ok dt =>
    let off : ℚ := ((dt - csvStart : ℤ) : ℚ) / 1000000
    let vt := binStart + off * scale
    let r2 := dinsertA r "VirtualTime" (format6 vt)
    ("VirtualTime" :: F).map (fun c => lookupD r2 c)

/-- The writing loop of `sync_and_write`: rows are written one by one; the first
row whose timestamp matches no accepted encoding aborts the loop, leaving the
rows already written. -/
def syncRowsLoop (tc : String) (F : List String) (csvStart : ℤ)
    (binStart scale : ℚ) : List CsvRow → List (List String) × Except String Unit
  | [] => ([], .ok ())
  | r :: rest =>
    match parse_row_timestamp (lookupD r tc) with
    | .error e => ([], .error e)
    | .ok _ =>
      let t := syncRowsLoop tc F csvStart binStart scale rest
      (sync_out_row tc F csvStart binStart scale r :: t.1, t.2)

instance {ε α : Type} [DecidableEq ε] [DecidableEq α] : DecidableEq (Except ε α) := fun
  | .ok a, .ok b =>
    if h : a = b then .isTrue (by rw [h]) else .isFalse (by intro hc; cases hc; exact h rfl)
  | .ok _, .error _ => .isFalse (by intro hc; cases hc)
  | .error _, .ok _ => .isFalse (by intro hc; cases hc)
  | .error e, .error f =>
    if h : e = f then .isTrue (by rw [h]) else .isFalse (by intro hc; cases hc; exact h rfl)

/-- Outcome of a `sync_and_write` run: the destination file contents (`none` if
the destination was never opened, otherwise the header row followed by the data
rows written before completion or abort) and the overall result. -/
structure SyncOut where
  dest : Option (List (List String))
  result : Except String Unit
deriving DecidableEq, Repr

/-- `sync_and_write` over the decoded flight log `B` and the external table
`(F, R)`: arm/disarm extraction, first/last timestamp parse, the
`csv_duration <= 0` guard (checked before the scale factor is computed), then —
only after all of that — the destination is opened, the header written, and the
rows rewritten in order. -/
def sync_and_write (B : List Message) (F : List String) (R : List CsvRow) : SyncOut :=
  match (get_arm_disarm_times B).2 with
  | .error e => ⟨none, .error e⟩
  | .ok (binStart, binEnd) =>
    let binDur := binEnd - binStart
    match parse_csv_timestamps F R with
    | .error e => ⟨none, .error e⟩
    | .ok (csvStart, csvEnd, tc) =>
      let csvDur : ℚ := ((csvEnd - csvStart : ℤ) : ℚ) / 1000000
      if csvDur ≤ 0 then ⟨none, .error "CSV duration is zero or negative."⟩
      else
        let scale := binDur / csvDur
        let t := syncRowsLoop tc F csvStart binStart scale R
        ⟨some (("VirtualTime" :: F) :: t.1), t.2⟩

/-! ## Concrete test fixtures

Concrete flight logs and external tables used by witnesses and
counterexamples.  Timestamps are epoch microseconds: 2026-02-02T10:00:00 is
1770026400000000. -/

def c1Bin : List Message :=
  [⟨"ARM", [("TimeUS", Value.int 100000000), ("ArmState", Value.int 1)]⟩,
   ⟨"ARM", [("TimeUS", Value.int 110000000), ("ArmState", Value.int 0)]⟩]

def c1Rows : List CsvRow :=
  [[("time", "2026-02-02T10:00:00:000"), ("val", "1")],
   [("time", "2026-02-02T10:00:10:000"), ("val", "2")],
   [("time", "2026-02-02T10:00:20:000"), ("val", "3")]]

def c1A : ℚ := ((100000000 : ℤ) : ℚ) / 1000000

def c1D : ℚ := ((110000000 : ℤ) : ℚ) / 1000000

def c1Scale : ℚ :=
  (c1D - c1A) / (((1770026420000000 - 1770026400000000 : ℤ) : ℚ) / 1000000)

def c5Bin : List Message :=
  [⟨"ARM", [("TimeUS", Value.int 100000000), ("ArmState", Value.int 1)]⟩,
   ⟨"ARM", [("TimeUS", Value.int 110000000), ("ArmState", Value.int 0)]⟩]

def c5Rows : List CsvRow :=
  [[("time", "2026-02-02T10:00:00:000"), ("val", "1")],
   [("time", "bad"), ("val", "2")],
   [("time", "2026-02-02T10:00:20:000"), ("val", "3")]]

def c5A : ℚ := ((100000000 : ℤ) : ℚ) / 1000000

def c5D : ℚ := ((110000000 : ℤ) : ℚ) / 1000000

def c7Bin : List Message :=
  [⟨"ARM", [("TimeUS", Value.int 100000000), ("ArmState", Value.int 1)]⟩,
   ⟨"ARM", [("TimeUS", Value.int 110000000), ("ArmState", Value.int 0)]⟩]

def c7Rows : List CsvRow := [[("time", "2026-02-02T10:00:00:000"), ("val", "1")]]

/-! ## Helper lemmas: assoc-list / dict operations -/

theorem lookup_map_replace {β : Type} (k : String) (v : β) :
    ∀ r : List (String × β), r.any (fun p => k == p.1) = true →
      List.lookup k (r.map (fun p => cond (k == p.1) (k, v) p)) = some v := by
  intro r
  induction r with
  | nil => simp
  | cons a r ih =>
    intro h
    obtain ⟨a1, a2⟩ := a
    cases hk : (k == a1) with
    | true => simp [List.lookup, hk]
    | false =>
      simp only [List.any_cons, hk, Bool.false_or] at h
      simpa [List.lookup, hk] using ih h

theorem lookup_append_self {β : Type} (k : String) (v : β) :
    ∀ r : List (String × β), r.any (fun p => k == p.1) = false →
      List.lookup k (r ++ [(k, v)]) = some v := by
  intro r
  induction r with
  | nil => simp [List.lookup]
  | cons a r ih =>
    intro h
    obtain ⟨a1, a2⟩ := a
    simp only [List.any_cons, Bool.or_eq_false_iff] at h
    simpa [List.lookup, h.1] using ih h.2

theorem lookup_dinsertA_self {β : Type} (r : List (String × β)) (k : String) (v : β) :
    List.lookup k (dinsertA r k v) = some v := by
  unfold dinsertA
  cases h : r.any (fun p => k == p.1) with
  | true => simpa [h] using lookup_map_replace k v r h
  | false => simpa [h] using lookup_append_self k v r h

theorem lookup_map_replace_ne {β : Type} (k q : String) (v : β)
    (hqk : (q == k) = false) :
    ∀ r : List (String × β),
      List.lookup q (r.map (fun p => cond (k == p.1) (k, v) p)) = List.lookup q r := by
  intro r
  induction r with
  | nil => simp
  | cons a r ih =>
    obtain ⟨a1, a2⟩ := a
    cases hk : (k == a1) with
    | true =>
      have ha1 : k = a1 := eq_of_beq hk
      have hq1 : (q == a1) = false := by rw [← ha1]; exact hqk
      simp [List.lookup, hk, hqk, hq1, ih]
    | false =>
      cases hq1 : (q == a1) with
      | true => simp [List.lookup, hk, hq1]
      | false => simp [List.lookup, hk, hq1, ih]

theorem lookup_append_ne {β : Type} (k q : String) (v : β)
    (hqk : (q == k) = false) :
    ∀ r : List (String × β), List.lookup q (r ++ [(k, v)]) = List.lookup q r := by
  intro r
  induction r with
  | nil => simp [List.lookup, hqk]
  | cons a r ih =>
    obtain ⟨a1, a2⟩ := a
    cases hq1 : (q == a1) with
    | true => simp [List.lookup, hq1]
    | false => simp [List.lookup, hq1, ih]

theorem lookup_dinsertA_ne {β : Type} (r : List (String × β)) (k q : String) (v : β)
    (hq : q ≠ k) : List.lookup q (dinsertA r k v) = List.lookup q r := by
  have hqk : (q == k) = false := by simpa using hq
  unfold dinsertA
  cases h : r.any (fun p => k == p.1) with
  | true => simpa [h] using lookup_map_replace_ne k q v hqk r
  | false => simpa [h] using lookup_append_ne k q v hqk r

theorem lookup_foldl_preserve {β : Type} (key : String → String) (f : String → β)
    (q : String) :
    ∀ (cols : List String) (r0 : List (String × β)), (∀ c ∈ cols, key c ≠ q) →
      List.lookup q (cols.foldl (fun r c => dinsertA r (key c) (f c)) r0) =
        List.lookup q r0 := by
  intro cols
  induction cols with
  | nil => intro r0 _; rfl
  | cons c cols ih =>
    intro r0 h
    simp only [List.foldl_cons]
    rw [ih _ (fun c' hc' => h c' (List.mem_cons_of_mem _ hc'))]
    exact lookup_dinsertA_ne r0 (key c) q (f c) (h c (List.mem_cons_self _ _)).symm

theorem lookup_foldl_write {β : Type} (key : String → String) (f : String → β) :
    ∀ (cols : List String) (r0 : List (String × β)) (col : String), col ∈ cols →
      (∀ c ∈ cols, key c = key col → c = col) →
      List.lookup (key col) (cols.foldl (fun r c => dinsertA r (key c) (f c)) r0) =
        some (f col) := by
  intro cols
  induction cols with
  | nil => intro r0 col h _; cases h
  | cons c cols ih =>
    intro r0 col hmem hinj
    simp only [List.foldl_cons]
    by_cases hrest : col ∈ cols
    · exact ih _ col hrest (fun c' hc' he => hinj c' (List.mem_cons_of_mem _ hc') he)
    · have hc : col = c := by
        rcases List.mem_cons.mp hmem with h | h
        · exact h
        · exact absurd h hrest
      subst hc
      rw [lookup_foldl_preserve key f (key col) cols _
        (fun c' hc' he => hrest ((hinj c' (List.mem_cons_of_mem _ hc') he) ▸ hc'))]
      exact lookup_dinsertA_self r0 (key col) (f col)

theorem mkKey_inj_right (t a b : String) (h : mkKey t a = mkKey t b) : a = b := by
  have hd : t.data ++ '.' :: a.data = t.data ++ '.' :: b.data := by
    have := congrArg String.data h
    simpa [mkKey] using this
  have h2 : a.data = b.data := by
    have h3 := List.append_cancel_left hd
    injection h3
  cases a; cases b; exact congrArg String.mk h2

theorem find?_append_match {α : Type} (p : α → Bool) :
    ∀ l1 l2 : List α,
      List.find? p (l1 ++ l2) =
        match List.find? p l1 with
        | some x => some x
        | none => List.find? p l2 := by
  intro l1 l2
  induction l1 with
  | nil => simp
  | cons a l ih =>
    cases hp : p a with
    | true => simp [List.find?, hp]
    | false => simpa [List.find?, hp] using ih

/-! ## Helper lemmas: the arm/disarm scan -/

theorem scanArm_fst :
    ∀ (l : List (ℤ × Option Value)) (fa ld : Option ℚ),
      (scanArm l fa ld).1 =
        match fa with
        | some x => some x
        | none =>
          (List.find? (fun r => r.2 == some (Value.int 1)) l).map
            (fun r => (r.1 : ℚ) / 1000000) := by
  intro l
  induction l with
  | nil => intro fa ld; cases fa <;> simp [scanArm]
  | cons a l ih =>
    intro fa ld
    obtain ⟨t, st⟩ := a
    cases fa with
    | some x => simpa [scanArm] using ih _ _
    | none =>
      cases h1 : (st == some (Value.int 1)) with
      | true => simp [scanArm, h1, List.find?, ih]
      | false => simp [scanArm, h1, List.find?, ih]

theorem scanArm_snd :
    ∀ (l : List (ℤ × Option Value)) (fa ld : Option ℚ),
      (scanArm l fa ld).2 =
        match List.find? (fun r => r.2 == some (Value.int 0)) l.reverse with
        | some r => some ((r.1 : ℚ) / 1000000)
        | none => ld := by
  intro l
  induction l with
  | nil => intro fa ld; simp [scanArm]
  | cons a l ih =>
    intro fa ld
    obtain ⟨t, st⟩ := a
    simp only [scanArm, List.reverse_cons]
    rw [ih, find?_append_match]
    cases hfind : List.find? (fun r => r.2 == some (Value.int 0)) l.reverse with
    | some r => simp
    | none =>
      cases h0 : (st == some (Value.int 0)) with
      | true => simp [List.find?, h0]
      | false => simp [List.find?, h0]

theorem collectArm_eq :
    ∀ B : List Message, (∀ m ∈ B, m.msgType = "ARM" → hasIntTimeUS m = true) →
      collectArm B = .ok (armRecords B) := by
  intro B
  induction B with
  | nil => intro _; rfl
  | cons m B ih =>
    intro h
    have hB := fun m' hm' => h m' (List.mem_cons_of_mem _ hm')
    cases hm : (m.msgType == "ARM") with
    | false =>
      have hm2 : ¬ (m.msgType = "ARM") := by simpa using hm
      have h1 : collectArm (m :: B) = collectArm B := by simp [collectArm, hm]
      have h2 : armRecords (m :: B) = armRecords B := by
        simp [armRecords, List.filterMap_cons, hm2]
      rw [h1, h2, ih hB]
    | true =>
      have harm : m.msgType = "ARM" := eq_of_beq hm
      have hint := h m (List.mem_cons_self _ _) harm
      unfold hasIntTimeUS at hint
      cases hg : getattrV m "TimeUS" with
      | none => rw [hg] at hint; simp at hint
      | some v =>
        cases v with
        | str s => rw [hg] at hint; simp at hint
        | int t =>
          have h2 : armRecords (m :: B) = (t, getattrV m "ArmState") :: armRecords B := by
            simp [armRecords, List.filterMap_cons, harm, hg]
          simp [collectArm, hm, hg, ih hB, h2]

/-! ## Helper lemmas: the event filter -/

theorem armEventCount_cons (m : Message) (l : List Message) :
    armEventCount (m :: l) = (if isArmEvent m then 1 else 0) + armEventCount l := by
  cases h : isArmEvent m <;>
    simp [armEventCount, List.filter_cons, h, Nat.add_comm]

theorem iterGo_sublist (types : List String) (skip : Nat) :
    ∀ (l : List Message) (n : Nat), (iterGo types skip l n).Sublist l := by
  intro l
  induction l with
  | nil => intro n; simp [iterGo]
  | cons m l ih =>
    intro n
    rw [iterGo]
    split
    · exact List.Sublist.cons m (ih n)
    · split
      · exact List.Sublist.cons m (ih n)
      · split
        · exact List.Sublist.cons m (ih _)
        · exact List.Sublist.cons₂ m (ih _)

theorem iterGo_closed_step (types : List String) (skip : Nat) (m : Message)
    (l : List Message) (n : Nat) (h : armStep m n < skip) :
    iterGo types skip (m :: l) n = iterGo types skip l (armStep m n) := by
  rw [iterGo]
  split
  · next hc =>
    have hev : (m.msgType == "EV") = false := by
      simp only [Bool.not_eq_eq_eq_not, Bool.not_true, Bool.or_eq_false_iff] at hc
      exact hc.2
    have harm : isArmEvent m = false := by simp [isArmEvent, hev]
    simp [armStep, harm]
  · split
    · next hbad =>
      have hb : m.msgType = "BAD_DATA" := by
        simpa [is_message_bad] using hbad
      have harm : isArmEvent m = false := by simp [isArmEvent, hb]
      simp [armStep, harm]
    · split
      · rfl
      · next hgate =>
        exfalso
        simp only [Bool.or_eq_true, not_or, decide_eq_true_eq] at hgate
        exact hgate.1 h

theorem iterGo_gate (types : List String) (skip : Nat) :
    ∀ (pre post : List Message) (n : Nat), n + armEventCount pre < skip →
      iterGo types skip (pre ++ post) n = iterGo types skip post (n + armEventCount pre) := by
  intro pre
  induction pre with
  | nil => intro post n h; simp [armEventCount]
  | cons m pre ih =>
    intro post n h
    rw [armEventCount_cons] at h
    have hlt : armStep m n < skip := by
      unfold armStep
      cases ha : isArmEvent m <;> rw [ha] at h <;> simp at h ⊢ <;> omega
    rw [List.cons_append, iterGo_closed_step types skip m (pre ++ post) n hlt,
      armEventCount_cons]
    cases ha : isArmEvent m with
    | false =>
      rw [ha] at h
      simp only [armStep, ha, Bool.false_eq_true, if_false, Nat.zero_add] at h ⊢
      exact ih post n h
    | true =>
      rw [ha] at h
      simp only [armStep, ha, if_true] at h ⊢
      have heq : n + (1 + armEventCount pre) = (n + 1) + armEventCount pre := by omega
      rw [heq]
      exact ih post (n + 1) (by omega)

theorem iterGo_skip0 (types : List String) :
    ∀ (l : List Message) (n : Nat),
      iterGo types 0 l n =
        l.filter (fun m => types.contains m.msgType && !(m.msgType == "EV")
          && !(m.msgType == "BAD_DATA")) := by
  intro l
  induction l with
  | nil => intro n; simp [iterGo]
  | cons m l ih =>
    intro n
    rw [iterGo]
    split
    · next hc =>
      simp only [Bool.not_eq_eq_eq_not, Bool.not_true, Bool.or_eq_false_iff] at hc
      have hmem : ¬ (m.msgType ∈ types) := by simpa using hc.1
      simp [List.filter_cons, hmem, ih]
    · split
      · next hbad =>
        have hb : m.msgType = "BAD_DATA" := by simpa [is_message_bad] using hbad
        simp [List.filter_cons, hb, ih]
      · split
        · next hgate =>
          have hev : m.msgType = "EV" := by
            rcases Bool.or_eq_true_iff.mp hgate with h | h
            · exact absurd (of_decide_eq_true h) (by omega)
            · exact eq_of_beq h
          simp [List.filter_cons, hev, ih]
        · rename_i hc hbad hgate
          simp only [Bool.or_eq_true, not_or, decide_eq_true_eq] at hgate
          have hev : ¬ (m.msgType = "EV") := fun he =>
            hgate.2 (by rw [he]; rfl)
          have hmem : m.msgType ∈ types := by
            simp only [Bool.not_eq_eq_eq_not, Bool.not_true, Bool.not_eq_false] at hc
            rcases Bool.or_eq_true_iff.mp hc with h | h
            · simpa using h
            · exact absurd (eq_of_beq h) hev
          have hnb : ¬ (m.msgType = "BAD_DATA") := fun hb =>
            hbad (by simpa [is_message_bad] using hb)
          simp [List.filter_cons, hmem, hev, hnb, ih]

theorem iterGo_all_not_EV (types : List String) (skip : Nat) :
    ∀ (l : List Message) (n : Nat),
      ((iterGo types skip l n).all (fun m => !(m.msgType == "EV"))) = true := by
  intro l
  induction l with
  | nil => intro n; simp [iterGo]
  | cons m l ih =>
    intro n
    rw [iterGo]
    split
    · exact ih n
    · split
      · exact ih n
      · split
        · exact ih _
        · next hgate =>
          simp only [Bool.or_eq_true, not_or, decide_eq_true_eq] at hgate
          have hev : (m.msgType == "EV") = false := by
            cases hev : (m.msgType == "EV") with
            | true => exact absurd hev hgate.2
            | false => rfl
          simp [List.all_cons, hev, ih]

theorem iterGo_onlyEV (skip : Nat) :
    ∀ (l : List Message) (n : Nat), iterGo ["EV"] skip l n = [] := by
  intro l
  induction l with
  | nil => intro n; simp [iterGo]
  | cons m l ih =>
    intro n
    rw [iterGo]
    split
    · exact ih n
    · split
      · exact ih n
      · split
        · exact ih _
        · rename_i hc hbad hgate
          exfalso
          simp only [Bool.or_eq_true, not_or, decide_eq_true_eq] at hgate
          simp only [Bool.not_eq_eq_eq_not, Bool.not_true, Bool.not_eq_false] at hc
          rcases Bool.or_eq_true_iff.mp hc with h | h
          · have : (m.msgType == "EV") = true := by
              simpa [List.contains] using h
            exact hgate.2 this
          · exact hgate.2 h

/-! ## Helper lemmas: the synchronization writing loop -/

theorem syncRowsLoop_ok (tc : String) (F : List String) (cs : ℤ) (bs sc : ℚ) :
    ∀ l : List CsvRow, (∀ r ∈ l, (parse_row_timestamp (lookupD r tc)).isOk = true) →
      syncRowsLoop tc F cs bs sc l = (l.map (sync_out_row tc F cs bs sc), .ok ()) := by
  intro l
  induction l with
  | nil => intro _; rfl
  | cons r l ih =>
    intro h
    have hr := h r (List.mem_cons_self _ _)
    cases hp : parse_row_timestamp (lookupD r tc) with
    | error e => rw [hp] at hr; simp [Except.isOk, Except.toBool] at hr
    | ok dt =>
      simp [syncRowsLoop, hp, ih (fun r' hr' => h r' (List.mem_cons_of_mem _ hr'))]

theorem syncRowsLoop_abort (tc : String) (F : List String) (cs : ℤ) (bs sc : ℚ) :
    ∀ (pre : List CsvRow) (bad : CsvRow) (post : List CsvRow) (e : String),
      (∀ r ∈ pre, (parse_row_timestamp (lookupD r tc)).isOk = true) →
      parse_row_timestamp (lookupD bad tc) = .error e →
      syncRowsLoop tc F cs bs sc (pre ++ bad :: post) =
        (pre.map (sync_out_row tc F cs bs sc), .error e) := by
  intro pre
  induction pre with
  | nil =>
    intro bad post e _ hbad
    simp [syncRowsLoop, hbad]
  | cons r pre ih =>
    intro bad post e h hbad
    have hr := h r (List.mem_cons_self _ _)
    cases hp : parse_row_timestamp (lookupD r tc) with
    | error e' => rw [hp] at hr; simp [Except.isOk, Except.toBool] at hr
    | ok dt =>
      simp [syncRowsLoop, hp,
        ih bad post e (fun r' hr' => h r' (List.mem_cons_of_mem _ hr')) hbad]

theorem sync_out_row_head (tc : String) (F : List String) (cs : ℤ) (bs sc : ℚ)
    (r : CsvRow) (t : ℤ) (hp : parse_row_timestamp (lookupD r tc) = .ok t) :
    (sync_out_row tc F cs bs sc r).head? =
      some (format6 (bs + ((t - cs : ℤ) : ℚ) / 1000000 * sc)) := by
  unfold sync_out_row
  rw [hp]
  simp only [List.map_cons, List.head?_cons]
  unfold lookupD
  rw [lookup_dinsertA_self]
  rfl

/-! ## Helper lemmas: `mapM` over `Except` -/

theorem mapM_ok_forall {α β : Type} (f : α → Except String β) :
    ∀ (l : List α) (res : List β), l.mapM f = .ok res → ∀ a ∈ l, (f a).isOk = true := by
  intro l
  induction l with
  | nil => intro res _ a ha; cases ha
  | cons x l ih =>
    intro res h a ha
    rw [List.mapM_cons] at h
    cases hx : f x with
    | error e =>
      rw [hx] at h
      have h2 : (Except.error e : Except String (List β)) = Except.ok res := h
      cases h2
    | ok y =>
      rcases List.mem_cons.mp ha with rfl | ha'
      · simp [hx, Except.isOk, Except.toBool]
      · rw [hx] at h
        cases hl : l.mapM f with
        | error e =>
          rw [hl] at h
          have h2 : (Except.error e : Except String (List β)) = Except.ok res := h
          cases h2
        | ok ys => exact ih ys hl a ha'

/-! ## Stepping lemma for `sync_and_write` -/

theorem sync_and_write_eq (B : List Message) (F : List String) (R : List CsvRow)
    (a d : ℚ) (s e : ℤ) (tc : String)
    (ha : (get_arm_disarm_times B).2 = .ok (a, d))
    (hp : parse_csv_timestamps F R = .ok (s, e, tc))
    (hng : ¬ ((((e - s : ℤ) : ℚ) / 1000000) ≤ 0)) :
    sync_and_write B F R =
      ⟨some (("VirtualTime" :: F) ::
        (syncRowsLoop tc F s a ((d - a) / (((e - s : ℤ) : ℚ) / 1000000)) R).1),
       (syncRowsLoop tc F s a ((d - a) / (((e - s : ℤ) : ℚ) / 1000000)) R).2⟩ := by
  unfold sync_and_write
  rw [ha]
  dsimp only
  rw [hp]
  dsimp only
  rw [if_neg hng]

/-! ## Claim theorems -/

/-- Evaluation helper: `roundHalfEven` at an integer is the integer itself. -/
theorem roundHalfEven_intCast (z : ℤ) : roundHalfEven ((z : ℤ) : ℚ) = z := by
  unfold roundHalfEven
  rw [Int.floor_intCast]
  norm_num

/-- Evaluation helper for `format6` at a nonnegative value with known numerator. -/
theorem format6_eval (q : ℚ) (z : ℤ) (hmul : q * 1000000 = ((z : ℤ) : ℚ))
    (hsign : ¬ q < 0) :
    format6 q = toString (z.natAbs / 1000000) ++ "." ++ natPad (z.natAbs % 1000000) 6 := by
  unfold format6
  rw [hmul, roundHalfEven_intCast, if_neg hsign]
  simp

/-- **C3** (confirmed): whenever the stream contains at least one `ARM` record in
state 1 and at least one in state 0 (each `ARM` record carrying a numeric
`TimeUS`), `get_arm_disarm_times` returns the pair (timestamp of the first
record whose state denotes armed, timestamp of the last record whose state
denotes disarmed), in seconds, regardless of how many transitions of each kind
occur and of their relative order. -/
theorem arm_disarm_window (B : List Message) (r1 r0 : ℤ × Option Value)
    (hwf : B.all (fun m => !(m.msgType == "ARM") || hasIntTimeUS m) = true)
    (h1 : (armRecords B).find? (fun r => r.2 == some (Value.int 1)) = some r1)
    (h0 : (armRecords B).reverse.find? (fun r => r.2 == some (Value.int 0)) = some r0) :
    (get_arm_disarm_times B).2 = .ok ((r1.1 : ℚ) / 1000000, (r0.1 : ℚ) / 1000000) := by
  have hwf2 : ∀ m ∈ B, m.msgType = "ARM" → hasIntTimeUS m = true := by
    intro m hm harm
    have hb := List.all_eq_true.mp hwf m hm
    rcases Bool.or_eq_true_iff.mp hb with h | h
    · exact absurd harm (by simpa using h)
    · exact h
  have hrecs := collectArm_eq B hwf2
  have hfst := scanArm_fst (armRecords B) none none
  have hsnd := scanArm_snd (armRecords B) none none
  rw [h1] at hfst
  rw [h0] at hsnd
  unfold get_arm_disarm_times
  rw [hrecs]
  dsimp only
  cases hscan : scanArm (armRecords B) none none with
  | mk f g =>
    rw [hscan] at hfst hsnd
    simp only [Option.map_some'] at hfst hsnd
    rw [hfst, hsnd]

/-- Witness for **C3** at the spec's concrete stream: disarm at t=10s, arm at
t=20s, disarms at t=30s and t=40s give the window (20.0, 40.0). -/
theorem arm_disarm_window_witness :
    (get_arm_disarm_times
      [⟨"ARM", [("TimeUS", Value.int 10000000), ("ArmState", Value.int 0)]⟩,
       ⟨"ARM", [("TimeUS", Value.int 20000000), ("ArmState", Value.int 1)]⟩,
       ⟨"ARM", [("TimeUS", Value.int 30000000), ("ArmState", Value.int 0)]⟩,
       ⟨"ARM", [("TimeUS", Value.int 40000000), ("ArmState", Value.int 0)]⟩]).2 =
      .ok (20, 40) := by
  have h := arm_disarm_window
    [⟨"ARM", [("TimeUS", Value.int 10000000), ("ArmState", Value.int 0)]⟩,
     ⟨"ARM", [("TimeUS", Value.int 20000000), ("ArmState", Value.int 1)]⟩,
     ⟨"ARM", [("TimeUS", Value.int 30000000), ("ArmState", Value.int 0)]⟩,
     ⟨"ARM", [("TimeUS", Value.int 40000000), ("ArmState", Value.int 0)]⟩]
    ((20000000 : ℤ), some (Value.int 1)) ((40000000 : ℤ), some (Value.int 0))
    (by decide) (by decide) (by decide)
  rw [h]
  norm_num

/-- **C1** (confirmed): with SyncWindow `(a, d)`, external first/last instants
`s`/`e` (strictly positive duration) and every row timestamp parseable, the Time
Synchronizer completes, writes header plus one rewritten row per input row, and
each row's leading `VirtualTime` cell is exactly
`format6 (a + (row_instant - s)/1e6 * ((d - a) / ((e - s)/1e6)))` — the linear
rescale `arm_time + (row_instant - external_start) * (vehicle_duration /
external_duration)`. -/
theorem sync_linear_rescale (B : List Message) (F : List String) (R : List CsvRow)
    (a d : ℚ) (s e : ℤ) (tc : String)
    (ha : (get_arm_disarm_times B).2 = .ok (a, d))
    (hp : parse_csv_timestamps F R = .ok (s, e, tc))
    (hdur : 0 < (((e - s : ℤ) : ℚ) / 1000000))
    (hrows : ∀ r ∈ R, (parse_row_timestamp (lookupD r tc)).isOk = true) :
    (sync_and_write B F R).result = .ok () ∧
    (sync_and_write B F R).dest =
      some (("VirtualTime" :: F) ::
        R.map (sync_out_row tc F s a ((d - a) / (((e - s : ℤ) : ℚ) / 1000000)))) ∧
    ∀ r ∈ R, ∀ t : ℤ, parse_row_timestamp (lookupD r tc) = .ok t →
      (sync_out_row tc F s a ((d - a) / (((e - s : ℤ) : ℚ) / 1000000)) r).head? =
        some (format6 (a + ((t - s : ℤ) : ℚ) / 1000000
          * ((d - a) / (((e - s : ℤ) : ℚ) / 1000000)))) := by
  have heq := sync_and_write_eq B F R a d s e tc ha hp (not_le.mpr hdur)
  have hloop := syncRowsLoop_ok tc F s a
    ((d - a) / (((e - s : ℤ) : ℚ) / 1000000)) R hrows
  refine ⟨?_, ?_, ?_⟩
  · rw [heq]
    show (syncRowsLoop tc F s a ((d - a) / (((e - s : ℤ) : ℚ) / 1000000)) R).2 = .ok ()
    rw [hloop]
  · rw [heq]
    show some (("VirtualTime" :: F) ::
        (syncRowsLoop tc F s a ((d - a) / (((e - s : ℤ) : ℚ) / 1000000)) R).1) = _
    rw [hloop]
  · intro r _ t hpt
    exact sync_out_row_head tc F s a _ r t hpt

/-- Witness for **C1**: the spec's example — vehicle window (100.0, 110.0), a
20-second external log with rows at offsets 0s/10s/20s — produces the virtual
times 100.000000, 105.000000, 110.000000 exactly. -/
theorem sync_linear_rescale_witness :
    (get_arm_disarm_times c1Bin).2 = .ok (c1A, c1D) ∧
    parse_csv_timestamps ["time", "val"] c1Rows =
      .ok (1770026400000000, 1770026420000000, "time") ∧
    (sync_and_write c1Bin ["time", "val"] c1Rows).result = .ok () ∧
    (sync_and_write c1Bin ["time", "val"] c1Rows).dest =
      some (["VirtualTime", "time", "val"] ::
        c1Rows.map (sync_out_row "time" ["time", "val"] 1770026400000000 c1A c1Scale)) ∧
    c1Rows.map
        (fun r => (sync_out_row "time" ["time", "val"] 1770026400000000 c1A c1Scale r).head?) =
      [some "100.000000", some "105.000000", some "110.000000"] := by
  have ha : (get_arm_disarm_times c1Bin).2 = .ok (c1A, c1D) := by rfl
  have hp : parse_csv_timestamps ["time", "val"] c1Rows =
      .ok (1770026400000000, 1770026420000000, "time") := by decide
  have hdur : 0 < ((1770026420000000 - 1770026400000000 : ℤ) : ℚ) / 1000000 := by
    norm_num
  have hrows : ∀ r ∈ c1Rows, (parse_row_timestamp (lookupD r "time")).isOk = true := by
    decide
  have h := sync_linear_rescale c1Bin ["time", "val"] c1Rows c1A c1D
    1770026400000000 1770026420000000 "time" ha hp hdur hrows
  refine ⟨ha, hp, h.1, h.2.1, ?_⟩
  have h1 := h.2.2 [("time", "2026-02-02T10:00:00:000"), ("val", "1")]
    (by decide) 1770026400000000 (by decide)
  have h2 := h.2.2 [("time", "2026-02-02T10:00:10:000"), ("val", "2")]
    (by decide) 1770026410000000 (by decide)
  have h3 := h.2.2 [("time", "2026-02-02T10:00:20:000"), ("val", "3")]
    (by decide) 1770026420000000 (by decide)
  have e1 : format6 (c1A + ((1770026400000000 - 1770026400000000 : ℤ) : ℚ) / 1000000
      * ((c1D - c1A) / (((1770026420000000 - 1770026400000000 : ℤ) : ℚ) / 1000000))) =
      "100.000000" := by
    rw [format6_eval _ 100000000 (by unfold c1A c1D; push_cast; norm_num)
      (by unfold c1A c1D; push_cast; norm_num)]
    decide
  have e2 : format6 (c1A + ((1770026410000000 - 1770026400000000 : ℤ) : ℚ) / 1000000
      * ((c1D - c1A) / (((1770026420000000 - 1770026400000000 : ℤ) : ℚ) / 1000000))) =
      "105.000000" := by
    rw [format6_eval _ 105000000 (by unfold c1A c1D; push_cast; norm_num)
      (by unfold c1A c1D; push_cast; norm_num)]
    decide
  have e3 : format6 (c1A + ((1770026420000000 - 1770026400000000 : ℤ) : ℚ) / 1000000
      * ((c1D - c1A) / (((1770026420000000 - 1770026400000000 : ℤ) : ℚ) / 1000000))) =
      "110.000000" := by
    rw [format6_eval _ 110000000 (by unfold c1A c1D; push_cast; norm_num)
      (by unfold c1A c1D; push_cast; norm_num)]
    decide
  show c1Rows.map _ = _
  rw [show c1Rows = [[("time", "2026-02-02T10:00:00:000"), ("val", "1")],
    [("time", "2026-02-02T10:00:10:000"), ("val", "2")],
    [("time", "2026-02-02T10:00:20:000"), ("val", "3")]] from rfl]
  simp only [List.map_cons, List.map_nil, c1Scale]
  rw [h1, h2, h3, e1, e2, e3]

/-- **C7** (confirmed): with a valid SyncWindow, an external log with zero rows
makes `sync_and_write` fail with the empty-log error, and a parsed duration
`e - s ≤ 0` makes it fail with the degenerate-duration error (the guard sits
before the scale-factor computation in `sync_and_write`); in both cases the
destination is never opened (`dest = none`). -/
theorem degenerate_duration_guard (B : List Message) (F : List String)
    (R : List CsvRow) (a d : ℚ) (s e : ℤ) (tc : String) :
    ((get_arm_disarm_times B).2 = .ok (a, d) →
      sync_and_write B F [] = ⟨none, .error "CSV file is empty."⟩) ∧
    ((get_arm_disarm_times B).2 = .ok (a, d) →
      parse_csv_timestamps F R = .ok (s, e, tc) → e ≤ s →
      sync_and_write B F R = ⟨none, .error "CSV duration is zero or negative."⟩) := by
  constructor
  · intro ha
    unfold sync_and_write
    rw [ha]
    rfl
  · intro ha hp he
    have h1 : ((e - s : ℤ) : ℚ) ≤ 0 := by
      have : (e - s : ℤ) ≤ 0 := by omega
      exact_mod_cast this
    have hle : ((e - s : ℤ) : ℚ) / 1000000 ≤ 0 :=
      div_nonpos_iff.mpr (Or.inr ⟨h1, by norm_num⟩)
    unfold sync_and_write
    rw [ha]
    dsimp only
    rw [hp]
    dsimp only
    rw [if_pos hle]

/-- Witness for **C7**: an empty external table fails with the empty-log error;
a single-row table (duration 0) fails with the degenerate-duration error; the
destination stays unopened in both runs. -/
theorem degenerate_duration_guard_witness :
    sync_and_write c7Bin ["time", "val"] [] = ⟨none, .error "CSV file is empty."⟩ ∧
    parse_csv_timestamps ["time", "val"] c7Rows =
      .ok (1770026400000000, 1770026400000000, "time") ∧
    sync_and_write c7Bin ["time", "val"] c7Rows =
      ⟨none, .error "CSV duration is zero or negative."⟩ := by
  have ha : (get_arm_disarm_times c7Bin).2 =
      .ok (((100000000 : ℤ) : ℚ) / 1000000, ((110000000 : ℤ) : ℚ) / 1000000) := rfl
  have h := degenerate_duration_guard c7Bin ["time", "val"] c7Rows
    (((100000000 : ℤ) : ℚ) / 1000000) (((110000000 : ℤ) : ℚ) / 1000000)
    1770026400000000 1770026400000000 "time"
  exact ⟨h.1 ha, by decide, h.2 ha (by decide) (by decide)⟩

/-- **C5** (corrected, general part): with valid window and positive duration,
when some middle row fails the per-row timestamp parse while the rows before it
succeed, the whole run aborts with that error — but only after the destination
was opened: the file holds the header plus precisely the rewritten rows that
preceded the failing one. -/
theorem timestamp_error_aborts_midfile (B : List Message) (F : List String)
    (pre : List CsvRow) (bad : CsvRow) (post : List CsvRow)
    (a d : ℚ) (s e : ℤ) (tc err : String)
    (ha : (get_arm_disarm_times B).2 = .ok (a, d))
    (hp : parse_csv_timestamps F (pre ++ bad :: post) = .ok (s, e, tc))
    (hdur : 0 < (((e - s : ℤ) : ℚ) / 1000000))
    (hpre : ∀ r ∈ pre, (parse_row_timestamp (lookupD r tc)).isOk = true)
    (hbad : parse_row_timestamp (lookupD bad tc) = .error err) :
    (sync_and_write B F (pre ++ bad :: post)).result = .error err ∧
    (sync_and_write B F (pre ++ bad :: post)).dest =
      some (("VirtualTime" :: F) ::
        pre.map (sync_out_row tc F s a ((d - a) / (((e - s : ℤ) : ℚ) / 1000000)))) := by
  have heq := sync_and_write_eq B F (pre ++ bad :: post) a d s e tc ha hp
    (not_le.mpr hdur)
  have habort := syncRowsLoop_abort tc F s a
    ((d - a) / (((e - s : ℤ) : ℚ) / 1000000)) pre bad post err hpre hbad
  constructor
  · rw [heq]
    show (syncRowsLoop tc F s a ((d - a) / (((e - s : ℤ) : ℚ) / 1000000))
      (pre ++ bad :: post)).2 = .error err
    rw [habort]
  · rw [heq]
    show some (("VirtualTime" :: F) ::
      (syncRowsLoop tc F s a ((d - a) / (((e - s : ℤ) : ℚ) / 1000000))
        (pre ++ bad :: post)).1) = _
    rw [habort]

/-- Counterexample for **C5** as stated: a run whose middle row has an
unparseable timestamp aborts as a whole, yet the destination was already opened
and holds the header plus one of the three data rows — neither fully written nor
never opened. -/
theorem timestamp_abort_counterexample :
    (sync_and_write c5Bin ["time", "val"] c5Rows).result =
      .error "Invalid isoformat string: .bad" ∧
    (sync_and_write c5Bin ["time", "val"] c5Rows).dest ≠ none ∧
    ((sync_and_write c5Bin ["time", "val"] c5Rows).dest.getD []).length = 2 ∧
    c5Rows.length = 3 := by
  have ha : (get_arm_disarm_times c5Bin).2 = .ok (c5A, c5D) := rfl
  have hp : parse_csv_timestamps ["time", "val"] c5Rows =
      .ok (1770026400000000, 1770026420000000, "time") := by decide
  have heq := sync_and_write_eq c5Bin ["time", "val"] c5Rows c5A c5D
    1770026400000000 1770026420000000 "time" ha hp (by norm_num)
  have habort := syncRowsLoop_abort "time" ["time", "val"] 1770026400000000 c5A
    ((c5D - c5A) / (((1770026420000000 - 1770026400000000 : ℤ) : ℚ) / 1000000))
    [[("time", "2026-02-02T10:00:00:000"), ("val", "1")]]
    [("time", "bad"), ("val", "2")]
    [[("time", "2026-02-02T10:00:20:000"), ("val", "3")]]
    "Invalid isoformat string: .bad" (by decide) (by decide)
  have hsplit : c5Rows =
      [[("time", "2026-02-02T10:00:00:000"), ("val", "1")]] ++
        [("time", "bad"), ("val", "2")] ::
          [[("time", "2026-02-02T10:00:20:000"), ("val", "3")]] := rfl
  rw [heq, hsplit, habort]
  refine ⟨rfl, by simp, by simp, rfl⟩

/-- Witness for the amended **C5** at the concrete three-row table with the bad
middle timestamp. -/
theorem timestamp_error_aborts_midfile_witness :
    (sync_and_write c5Bin ["time", "val"]
      ([[("time", "2026-02-02T10:00:00:000"), ("val", "1")]] ++
        [("time", "bad"), ("val", "2")] ::
          [[("time", "2026-02-02T10:00:20:000"), ("val", "3")]])).result =
      .error "Invalid isoformat string: .bad" ∧
    (sync_and_write c5Bin ["time", "val"]
      ([[("time", "2026-02-02T10:00:00:000"), ("val", "1")]] ++
        [("time", "bad"), ("val", "2")] ::
          [[("time", "2026-02-02T10:00:20:000"), ("val", "3")]])).dest =
      some (("VirtualTime" :: ["time", "val"]) ::
        [[("time", "2026-02-02T10:00:00:000"), ("val", "1")]].map
          (sync_out_row "time" ["time", "val"] 1770026400000000 c5A
            ((c5D - c5A) /
              (((1770026420000000 - 1770026400000000 : ℤ) : ℚ) / 1000000)))) := by
  exact timestamp_error_aborts_midfile c5Bin ["time", "val"]
    [[("time", "2026-02-02T10:00:00:000"), ("val", "1")]]
    [("time", "bad"), ("val", "2")]
    [[("time", "2026-02-02T10:00:20:000"), ("val", "3")]]
    c5A c5D 1770026400000000 1770026420000000 "time" "Invalid isoformat string: .bad"
    rfl (by decide) (by norm_num) (by decide) (by decide)

/-- Counterexample for **C2** as stated: with `skip_n_arms = 0` and requested
set `{"EV"}`, the stream's first (and only) event is well-formed and of a
requested type, yet nothing is yielded — `EV` events are filtered out
unconditionally. -/
theorem event_filter_first_counterexample :
    iter_mavlink_messages [⟨"EV", [("Id", Value.int 5)]⟩] ["EV"] 0 = [] ∧
    is_message_bad (some ⟨"EV", [("Id", Value.int 5)]⟩) = false ∧
    List.contains ["EV"] ("EV" : String) = true := by decide

/-- **C2** (amended): (1) with `skip_n_arms = N`, every event lying in a stream
region that holds fewer than `N` arm transitions is suppressed — the yielded
sequence is a sublist of the remaining suffix; (2) with `skip_n_arms = 0` the
filter yields exactly the well-formed events of a requested type other than the
arm-event type `"EV"` — in particular the first such event is yielded. -/
theorem event_filter_gate (types : List String) (N : Nat)
    (pre post stream : List Message) (h : armEventCount pre < N) :
    (iter_mavlink_messages (pre ++ post) types N).Sublist post ∧
    iter_mavlink_messages stream types 0 =
      stream.filter (fun m => types.contains m.msgType && !(m.msgType == "EV")
        && !(m.msgType == "BAD_DATA")) := by
  constructor
  · unfold iter_mavlink_messages
    rw [iterGo_gate types N pre post 0 (by omega)]
    exact iterGo_sublist types N post _
  · exact iterGo_skip0 types stream 0

/-- Witness for the amended **C2**: one arm transition observed with
`skip_n_arms = 2` suppresses the leading region; with `skip_n_arms = 0` a lone
well-formed `GPS` event is yielded immediately. -/
theorem event_filter_gate_witness :
    armEventCount [⟨"EV", [("Id", Value.int 10)]⟩] < 2 ∧
    (iter_mavlink_messages
        ([⟨"EV", [("Id", Value.int 10)]⟩] ++ [⟨"GPS", [("Lat", Value.int 1)]⟩])
        ["GPS"] 2).Sublist [⟨"GPS", [("Lat", Value.int 1)]⟩] ∧
    iter_mavlink_messages [⟨"GPS", [("Lat", Value.int 1)]⟩] ["GPS"] 0 =
      [⟨"GPS", [("Lat", Value.int 1)]⟩] := by
  have h := event_filter_gate ["GPS"] 2 [⟨"EV", [("Id", Value.int 10)]⟩]
    [⟨"GPS", [("Lat", Value.int 1)]⟩] [⟨"GPS", [("Lat", Value.int 1)]⟩] (by decide)
  refine ⟨by decide, h.1, ?_⟩
  rw [h.2]
  decide

/-- **C10** (confirmed): no yielded event ever has the arm-event type `"EV"`,
for every stream, requested set and skip count — even when `"EV"` is requested
and for `EV` events that are not arm transitions; consequently a tabular export
requesting only `EV.Id` produces the header and no data rows. -/
theorem ev_never_yielded :
    (∀ (stream : List Message) (types : List String) (skip : Nat),
      ((iter_mavlink_messages stream types skip).all
        (fun m => !(m.msgType == "EV"))) = true) ∧
    (∀ (stream : List Message) (skip : Nat),
      mavlog2csvRun stream ["EV.Id"] skip =
        .ok (["TimeUS", "TimeS", "Date", "Time", "EV.Id"], [])) := by
  constructor
  · intro stream types skip
    exact iterGo_all_not_EV types skip stream 0
  · intro stream skip
    unfold mavlog2csvRun
    rw [show (List.mapM parse_cli_column ["EV.Id"]) =
      .ok [(("EV" : String), ("Id" : String))] from rfl]
    dsimp only
    rw [show List.map (fun p => p.1) [(("EV" : String), ("Id" : String))] =
      ["EV"] from rfl]
    unfold iter_mavlink_messages
    rw [iterGo_onlyEV]
    rfl

/-- Counterexample for **C8** as stated: a field present with the empty-string
value renders as the empty string, so "output cell is empty if and only if the
field is absent" fails; and a present `MODE.Mode` numeric zero renders as the
mode name `"MANUAL"`, not as the literal `0`. -/
theorem row_projection_counterexample :
    getattrV ⟨"TEST", [("F", Value.str ""), ("TimeUS", Value.int 123456)]⟩ "F" =
      some (Value.str "") ∧
    (message_to_row ⟨"TEST", [("F", Value.str ""), ("TimeUS", Value.int 123456)]⟩
        ["F"]).lookup "TEST.F" = some (RVal.str "") ∧
    getattrV ⟨"MODE", [("Mode", Value.int 0)]⟩ "Mode" = some (Value.int 0) ∧
    (message_to_row ⟨"MODE", [("Mode", Value.int 0)]⟩ ["Mode"]).lookup "MODE.Mode" =
      some (RVal.str "MANUAL") ∧
    RVal.str "MANUAL" ≠ RVal.int 0 := by decide

/-- **C8** (amended): for a requested column `col` of an event, the output cell
under key `msgType.col` is: the empty string when the field is absent; the
literal value (including numeric zero and the present-but-empty string, the
latter coinciding with the absent rendering) when present and not a
`MODE.Mode`/`MODE.ModeNum` field; and the mode-table translation
`get_mode_string z` for a present numeric `MODE` mode field. -/
theorem row_projection_cells (m : Message) (cols : List String) (col : String)
    (hcol : col ∈ cols) :
    (getattrV m col = none →
      (message_to_row m cols).lookup (mkKey m.msgType col) = some (RVal.str "")) ∧
    (∀ z : ℤ, getattrV m col = some (Value.int z) →
      ¬(m.msgType = "MODE" ∧ (col = "Mode" ∨ col = "ModeNum")) →
      (message_to_row m cols).lookup (mkKey m.msgType col) = some (RVal.int z)) ∧
    (∀ w : String, getattrV m col = some (Value.str w) →
      ¬(m.msgType = "MODE" ∧ (col = "Mode" ∨ col = "ModeNum")) →
      (message_to_row m cols).lookup (mkKey m.msgType col) = some (RVal.str w)) ∧
    (∀ z : ℤ, getattrV m col = some (Value.int z) →
      m.msgType = "MODE" → (col = "Mode" ∨ col = "ModeNum") →
      (message_to_row m cols).lookup (mkKey m.msgType col) =
        some (RVal.str (get_mode_string z))) := by
  have hlook : (message_to_row m cols).lookup (mkKey m.msgType col) =
      some (cellVal m col) := by
    unfold message_to_row
    exact lookup_foldl_write (mkKey m.msgType) (cellVal m) cols _ col hcol
      (fun c _ he => mkKey_inj_right m.msgType c col he)
  refine ⟨?_, ?_, ?_, ?_⟩
  · intro hget
    rw [hlook]
    simp [cellVal, hget]
  · intro z hget hnot
    have hb : (m.msgType == "MODE" && (col == "Mode" || col == "ModeNum")) = false := by
      cases hb : (m.msgType == "MODE" && (col == "Mode" || col == "ModeNum")) with
      | true =>
        exfalso
        rcases Bool.and_eq_true_iff.mp hb with ⟨h1, h2⟩
        rcases Bool.or_eq_true_iff.mp h2 with h3 | h3
        · exact hnot ⟨eq_of_beq h1, Or.inl (eq_of_beq h3)⟩
        · exact hnot ⟨eq_of_beq h1, Or.inr (eq_of_beq h3)⟩
      | false => rfl
    rw [hlook]
    simp [cellVal, hget, hb]
  · intro w hget hnot
    have hb : (m.msgType == "MODE" && (col == "Mode" || col == "ModeNum")) = false := by
      cases hb : (m.msgType == "MODE" && (col == "Mode" || col == "ModeNum")) with
      | true =>
        exfalso
        rcases Bool.and_eq_true_iff.mp hb with ⟨h1, h2⟩
        rcases Bool.or_eq_true_iff.mp h2 with h3 | h3
        · exact hnot ⟨eq_of_beq h1, Or.inl (eq_of_beq h3)⟩
        · exact hnot ⟨eq_of_beq h1, Or.inr (eq_of_beq h3)⟩
      | false => rfl
    rw [hlook]
    simp [cellVal, hget, hb]
  · intro z hget h1 h2
    have hb : (m.msgType == "MODE" && (col == "Mode" || col == "ModeNum")) = true := by
      rcases h2 with h2 | h2 <;> simp [h1, h2]
    rw [hlook]
    simp [cellVal, hget, hb, translateMode]

/-- Witness for the amended **C8** at a concrete event carrying a present zero,
a present empty string and an absent field. -/
theorem row_projection_cells_witness :
    (getattrV ⟨"TEST", [("G", Value.int 0)]⟩ "G" = none →
      (message_to_row ⟨"TEST", [("G", Value.int 0)]⟩ ["G"]).lookup
        (mkKey "TEST" "G") = some (RVal.str "")) ∧
    (∀ z : ℤ, getattrV ⟨"TEST", [("G", Value.int 0)]⟩ "G" = some (Value.int z) →
      ¬(("TEST" : String) = "MODE" ∧ (("G" : String) = "Mode" ∨ ("G" : String) = "ModeNum")) →
      (message_to_row ⟨"TEST", [("G", Value.int 0)]⟩ ["G"]).lookup
        (mkKey "TEST" "G") = some (RVal.int z)) ∧
    (∀ w : String, getattrV ⟨"TEST", [("G", Value.int 0)]⟩ "G" = some (Value.str w) →
      ¬(("TEST" : String) = "MODE" ∧ (("G" : String) = "Mode" ∨ ("G" : String) = "ModeNum")) →
      (message_to_row ⟨"TEST", [("G", Value.int 0)]⟩ ["G"]).lookup
        (mkKey "TEST" "G") = some (RVal.str w)) ∧
    (∀ z : ℤ, getattrV ⟨"TEST", [("G", Value.int 0)]⟩ "G" = some (Value.int z) →
      ("TEST" : String) = "MODE" → (("G" : String) = "Mode" ∨ ("G" : String) = "ModeNum") →
      (message_to_row ⟨"TEST", [("G", Value.int 0)]⟩ ["G"]).lookup
        (mkKey "TEST" "G") = some (RVal.str (get_mode_string z))) :=
  row_projection_cells ⟨"TEST", [("G", Value.int 0)]⟩ ["G"] "G" (by decide)

/-- Counterexample for **C9** as stated: `"GPS.Lat.Lon"` does not match the
`Type.Field` pattern with no extra content, yet `parse_cli_column` accepts it
(`re.match` anchors only at the start, so trailing content is ignored). -/
theorem column_spec_counterexample :
    parse_cli_column "GPS.Lat.Lon" = .ok ("GPS", "Lat") ∧
    matchesTypeFieldExact "GPS.Lat.Lon" = false := by decide

/-- **C9** (amended): a column string is accepted exactly when it starts with
`word.word` (trailing content ignored); when any column of a run lacks such a
start, the run fails and does so before any event is read from the decoder —
the outcome is identical for every stream. -/
theorem column_spec_rejection (s : String) (cols : List String)
    (stream stream2 : List Message) (skip : Nat) (c : String)
    (hc : c ∈ cols) (hbad : hasWordDotWord c = false) :
    ((parse_cli_column s).isOk = hasWordDotWord s) ∧
    (mavlog2csvRun stream cols skip).isOk = false ∧
    mavlog2csvRun stream cols skip = mavlog2csvRun stream2 cols skip := by
  have hiff : ∀ x : String, (parse_cli_column x).isOk = hasWordDotWord x := by
    intro x
    unfold parse_cli_column hasWordDotWord
    cases wordDotWordSplit x.data with
    | none => rfl
    | some p => obtain ⟨p1, p2⟩ := p; rfl
  refine ⟨hiff s, ?_, ?_⟩
  · cases hm : cols.mapM parse_cli_column with
    | error e => unfold mavlog2csvRun; rw [hm]; rfl
    | ok l =>
      exfalso
      have hok := mapM_ok_forall parse_cli_column cols l hm c hc
      rw [hiff c, hbad] at hok
      cases hok
  · cases hm : cols.mapM parse_cli_column with
    | error e => unfold mavlog2csvRun; rw [hm]
    | ok l =>
      exfalso
      have hok := mapM_ok_forall parse_cli_column cols l hm c hc
      rw [hiff c, hbad] at hok
      cases hok

/-- Witness for the amended **C9**: the malformed column `"GPS."` makes the run
fail identically on an empty stream and on a nonempty one. -/
theorem column_spec_rejection_witness :
    ((parse_cli_column "GPS.").isOk = hasWordDotWord "GPS.") ∧
    (mavlog2csvRun [] ["GPS."] 0).isOk = false ∧
    mavlog2csvRun [] ["GPS."] 0 =
      mavlog2csvRun [⟨"GPS", [("Lat", Value.int 1)]⟩] ["GPS."] 0 :=
  column_spec_rejection "GPS." ["GPS."] [] [⟨"GPS", [("Lat", Value.int 1)]⟩] 0
    "GPS." (by decide) (by decide)

/-- Counterexample for **C4** as stated: the first/last-row parse site
(`parse_dt`) rejects the ISO dot encoding — it never attempts a direct
ISO-8601 parse, only the colon-millisecond rewrite. -/
theorem timestamp_parse_counterexample :
    (parse_dt "2026-02-02T13:23:42.231").isOk = false ∧
    (parse_dt "2026-02-02T13:23:42:231").isOk = true := by decide

/-- **C4** (amended): at the per-row parse site a directly ISO-parseable string
is accepted first (before any colon rewrite), so the colon and dot encodings
parse to the same instant there; the first/last-row site (`parse_dt`) accepts
only the colon-millisecond encoding and rejects the ISO dot encoding. -/
theorem timestamp_normalization (s : String) (v : ℤ)
    (hv : fromisoformat s = .ok v) :
    parse_row_timestamp s = .ok v ∧
    parse_row_timestamp "2026-02-02T13:23:42:231" =
      parse_row_timestamp "2026-02-02T13:23:42.231" ∧
    parse_row_timestamp "2026-02-02T13:23:42.231" = .ok 1770038622231000 ∧
    (parse_dt "2026-02-02T13:23:42:231").isOk = true ∧
    (parse_dt "2026-02-02T13:23:42.231").isOk = false := by
  refine ⟨?_, by decide, by decide, by decide, by decide⟩
  unfold parse_row_timestamp
  rw [hv]

/-- Witness for the amended **C4** at the ISO dot encoding of the spec's
round-trip example. -/
theorem timestamp_normalization_witness :
    fromisoformat "2026-02-02T13:23:42.231" = .ok 1770038622231000 ∧
    (parse_row_timestamp "2026-02-02T13:23:42.231" = .ok 1770038622231000 ∧
      parse_row_timestamp "2026-02-02T13:23:42:231" =
        parse_row_timestamp "2026-02-02T13:23:42.231" ∧
      parse_row_timestamp "2026-02-02T13:23:42.231" = .ok 1770038622231000 ∧
      (parse_dt "2026-02-02T13:23:42:231").isOk = true ∧
      (parse_dt "2026-02-02T13:23:42.231").isOk = false) :=
  ⟨by decide, timestamp_normalization "2026-02-02T13:23:42.231" 1770038622231000
    (by decide)⟩

/-- **C6** (code bug): the decoder handle is NOT released on every exit path: in
`get_arm_disarm_times` the connection trace contains the open event but never a
close event — on any input, including fully successful runs — and the
`mavlink_connect` context manager (no `try`/`finally` around its `yield`) skips
`conn.close()` whenever the body raises. -/
theorem handle_never_closed :
    (∀ B : List Message,
      ((get_arm_disarm_times B).1.contains REvent.closeConn) = false ∧
      ((get_arm_disarm_times B).1.contains REvent.openConn) = true) ∧
    (∀ evs : List REvent,
      mavlink_connect_trace "log.bin" evs false = REvent.openConn :: evs) := by
  constructor
  · intro B
    unfold get_arm_disarm_times
    cases collectArm B with
    | error e => exact ⟨rfl, rfl⟩
    | ok recs =>
      dsimp only
      cases hscan : scanArm recs none none with
      | mk f g =>
        cases f with
        | none =>
          cases hre : recs.isEmpty <;> simp [List.contains, hre] <;> decide
        | some fa =>
          cases g with
          | none => cases hre : recs.isEmpty <;> simp [List.contains, hre] <;> decide
          | some ld => cases hre : recs.isEmpty <;> simp [List.contains, hre] <;> decide
  · intro evs
    unfold mavlink_connect_trace
    rw [if_pos (show endsWithBin "log.bin" = true by decide)]
    simp
